import Mathlib

/-!
Verification of the custom neural-network components in
`src/pytorch/libs/nnet/components.py` (asv-subtools).

The Python file defines modules (TdnnAffine, TdnnfBlock, StatisticsPooling,
AttentiveStatisticsPooling, ContextDropout, AdaptivePCMN, SEBlock, ...) whose
forward passes delegate to the host tensor library.  We embed the relevant
modules shallowly: a 3-d tensor becomes a shape triple together with a total
data function, the host primitives (constant and replicate padding, strided
grouped 1-d convolution, L2 normalization along dim 1, concatenation along
dim 1) are modelled from their documented semantics over an arbitrary linear
ordered field, and Python-level failures (assert, AttributeError, NameError,
IndexError, exit()) become an error type.  Square root is kept as an explicit
function parameter so that every definition stays executable; concrete
evaluations instantiate it with the exact rational square root, which agrees
with the host square root on the perfect squares that appear in them.
-/

/-- Python-level abnormal outcomes that the embedded code can produce. -/
inductive PyErr where
  | assertError
  | attributeError
  | nameError
  | indexError
  | processExit
  deriving DecidableEq

/-- A 3-dimensional tensor of shape `(n, c, t)`: batch, channel and frame
counts together with a total data function.  Only indices below the bounds
are meaningful. -/
structure Tensor3 (α : Type) where
  n : ℕ
  c : ℕ
  t : ℕ
  data : ℕ → ℕ → ℕ → α

/-- Extensional equality of tensors: equal shapes and equal entries at every
in-range index. -/
def Tensor3.EqT {α : Type} (x y : Tensor3 α) : Prop :=
  x.n = y.n ∧ x.c = y.c ∧ x.t = y.t ∧
    ∀ i, i < x.n → ∀ j, j < x.c → ∀ k, k < x.t → x.data i j k = y.data i j k

instance {α : Type} [DecidableEq α] (x y : Tensor3 α) : Decidable (x.EqT y) := by
  unfold Tensor3.EqT
  infer_instance

/-- Whether an `Except` computation succeeded. -/
def isOkE {ε γ : Type} : Except ε γ → Bool
  | Except.ok _ => true
  | Except.error _ => false

section HostPrimitives

variable {α : Type} [LinearOrderedField α]

/-- Host primitive `F.pad(x, (l, r), mode="constant", value=0)` on the last
dimension of a 3-d tensor. -/
def padConst (x : Tensor3 α) (l r : ℕ) : Tensor3 α :=
  ⟨x.n, x.c, x.t + l + r, fun i j k =>
    if l ≤ k ∧ k < l + x.t then x.data i j (k - l) else 0⟩

/-- Host primitive `F.pad(x, (l, r), mode="replicate")` on the last dimension:
out-of-range frames copy the nearest edge frame. -/
def padReplicate (x : Tensor3 α) (l r : ℕ) : Tensor3 α :=
  ⟨x.n, x.c, x.t + l + r, fun i j k => x.data i j (min (k - l) (x.t - 1))⟩

/-- Python slice `x[:, :, a:b]` on the frame dimension. -/
def slice3 (x : Tensor3 α) (a b : ℕ) : Tensor3 α :=
  ⟨x.n, x.c, b - a, fun i j k => x.data i j (k + a)⟩

/-- Optional bias lookup: a bias tensor contributes its entry, `None`
contributes zero. -/
def biasV {β : Type} [Zero β] (b : Option (ℕ → β)) (o : ℕ) : β :=
  match b with
  | some f => f o
  | none => 0

/-- Host primitive `F.conv1d(x, w, bias, stride, padding=0, dilation=1,
groups=g)`.  `w` has shape `(outChannels, inChannels/g, kernel)`; output frame
`k` reads input frames `k*s .. k*s + kernel - 1`, and output channel `o`
reads the input channels of its group. -/
def conv1d (x w : Tensor3 α) (b : Option (ℕ → α)) (s g : ℕ) : Tensor3 α :=
  ⟨x.n, w.n, (x.t - w.t) / s + 1, fun i o k =>
    biasV b o +
      ∑ j ∈ Finset.range w.c, ∑ u ∈ Finset.range w.t,
        w.data o j u * x.data i (o / (w.n / g) * w.c + j) (k * s + u)⟩

/-- Host primitive `F.normalize(v, p=2, dim=1, eps)`: each dim-1 column is
divided by the maximum of its L2 norm and `eps`.  The square root used by the
host is passed in explicitly. -/
def normalizeDim1 (sqrt : α → α) (eps : α) (x : Tensor3 α) : Tensor3 α :=
  ⟨x.n, x.c, x.t, fun i j k =>
    x.data i j k / max (sqrt (∑ j2 ∈ Finset.range x.c, x.data i j2 k ^ 2)) eps⟩

/-- Host primitive `torch.cat((a, b), dim=1)`. -/
def cat2 (a b : Tensor3 α) : Tensor3 α :=
  ⟨a.n, a.c + b.c, a.t, fun i j k =>
    if j < a.c then a.data i j k else b.data i (j - a.c) k⟩

/-- Elementwise product (matching shapes). -/
def mul3 (a b : Tensor3 α) : Tensor3 α :=
  ⟨a.n, a.c, a.t, fun i j k => a.data i j k * b.data i j k⟩

/-- Elementwise difference (matching shapes). -/
def sub3 (a b : Tensor3 α) : Tensor3 α :=
  ⟨a.n, a.c, a.t, fun i j k => a.data i j k - b.data i j k⟩

/-- Adding a scalar to every entry. -/
def addC (a : Tensor3 α) (v : α) : Tensor3 α :=
  ⟨a.n, a.c, a.t, fun i j k => a.data i j k + v⟩

end HostPrimitives

/-- The exact rational square root `Int.sqrt num / Nat.sqrt den` - an
executable stand-in for the host square root that agrees with it on perfect
squares. -/
def hostSqrtQ (q : ℚ) : ℚ := (Int.sqrt q.num : ℚ) / (Nat.sqrt q.den : ℚ)

/-- The default `eps` of the host `F.normalize` (1e-12). -/
def normEps : ℚ := 1 / 10 ^ 12

section TdnnAffine

variable {α : Type} [LinearOrderedField α]

/-- State stored by `TdnnAffine.__init__` (components.py lines 29-93). -/
structure TdnnAffine (α : Type) where
  input_dim : ℕ
  output_dim : ℕ
  context : List ℤ
  bool_bias : Bool
  pad : Bool
  norm_w : Bool
  norm_f : Bool
  stride : ℕ
  left_context : ℤ
  right_context : ℤ
  tot_context : ℤ
  weight : Tensor3 α
  bias : Option (ℕ → α)
  mask : Option (Tensor3 α)
  selected_device : Bool

/-- The constructor loop `for index in range(0, len(context) - 1): if
context[index] >= context[index + 1]: exit()` as a boolean check. -/
def contextInvalid : List ℤ → Bool
  | a :: b :: rest => decide (a ≥ b) || contextInvalid (b :: rest)
  | _ => false

/-- `self.left_context = context[0] if context[0] < 0 else 0`. -/
def tdnnLeft (c0 : ℤ) : ℤ := if c0 < 0 then c0 else 0

/-- `self.right_context = context[-1] if context[-1] > 0 else 0`. -/
def tdnnRight (c0 : ℤ) (rest : List ℤ) : ℤ :=
  if 0 < (c0 :: rest).getLast (List.cons_ne_nil c0 rest) then
    (c0 :: rest).getLast (List.cons_ne_nil c0 rest)
  else 0

/-- `self.tot_context = self.right_context - self.left_context + 1`. -/
def tdnnTot (c0 : ℤ) (rest : List ℤ) : ℤ := tdnnRight c0 rest - tdnnLeft c0 + 1

/-- The skip mask `torch.tensor([[[1 if index in context else 0 for index in
range(left_context, right_context + 1)]]])`. -/
def tdnnMaskT (c0 : ℤ) (rest : List ℤ) : Tensor3 α :=
  ⟨1, 1, (tdnnTot c0 rest).toNat, fun _ _ u =>
    if (tdnnLeft c0 + (u : ℤ)) ∈ c0 :: rest then 1 else 0⟩

/-- The module state built by `TdnnAffine.__init__` for a nonempty context
that passed the ordering check.  `w0` and `b0` stand for the randomly
initialised parameter entries; the weight tensor gets shape
`(output_dim, input_dim, tot_context)`, the bias is kept only when requested,
`norm_f` is forced off when `tot_context > 1`, and the mask is allocated only
when the context has gaps (`len(context) != tot_context`). -/
def tdnnMk (i o : ℕ) (c0 : ℤ) (rest : List ℤ) (b p nw nf : Bool) (s : ℕ)
    (w0 : ℕ → ℕ → ℕ → α) (b0 : ℕ → α) : TdnnAffine α :=
  { input_dim := i
    output_dim := o
    context := c0 :: rest
    bool_bias := b
    pad := p
    norm_w := nw
    norm_f := if 1 < tdnnTot c0 rest ∧ nf = true then false else nf
    stride := s
    left_context := tdnnLeft c0
    right_context := tdnnRight c0 rest
    tot_context := tdnnTot c0 rest
    weight := ⟨o, i, (tdnnTot c0 rest).toNat, w0⟩
    bias := if b then some b0 else none
    mask :=
      if ((c0 :: rest).length : ℤ) ≠ tdnnTot c0 rest then some (tdnnMaskT c0 rest)
      else none
    selected_device := false }

/-- `TdnnAffine.__init__(input_dim, output_dim, context, bias, pad, norm_w,
norm_f, subsampling_factor)`: an unsorted context calls `exit()`, an empty
context dies on `context[0]` with IndexError, otherwise the state `tdnnMk`
is stored. -/
def tdnnAffineInit (i o : ℕ) (context : List ℤ) (b p nw nf : Bool) (s : ℕ)
    (w0 : ℕ → ℕ → ℕ → α) (b0 : ℕ → α) : Except PyErr (TdnnAffine α) :=
  if contextInvalid context then Except.error PyErr.processExit
  else
    match context with
    | [] => Except.error PyErr.indexError
    | c0 :: rest => Except.ok (tdnnMk i o c0 rest b p nw nf s w0 b0)

/-- The padding step of `TdnnAffine.forward`:
`F.pad(inputs, (-left_context, right_context), mode="constant", value=0)`
when `self.pad` is set. -/
def tdnnPadded (m : TdnnAffine α) (x : Tensor3 α) : Tensor3 α :=
  if m.pad then padConst x (-m.left_context).toNat m.right_context.toNat else x

/-- The state update inside `TdnnAffine.forward`: the first successful call
with a mask moves the mask to the device and sets `selected_device = True`. -/
def tdnnStep (m : TdnnAffine α) : TdnnAffine α :=
  if m.selected_device = false ∧ m.mask.isSome = true then
    { m with selected_device := true }
  else m

/-- `filters = self.weight * self.mask if self.mask is not None else
self.weight`; the `(1, 1, K)` mask broadcasts over the first two weight
dimensions. -/
def tdnnMaskedWeight (m : TdnnAffine α) : Tensor3 α :=
  match m.mask with
  | some msk => ⟨m.weight.n, m.weight.c, m.weight.t, fun o j u =>
      m.weight.data o j u * msk.data 0 0 u⟩
  | none => m.weight

/-- `TdnnAffine.forward` (components.py lines 103-133): shape asserts, then
optional constant padding, the frame-count assert, the device bookkeeping,
the optional mask multiplication and the optional weight/feature
normalizations, and finally `F.conv1d(inputs, filters, self.bias,
self.stride, padding=0, dilation=1, groups=1)`.  The updated module state is
returned alongside the output. -/
def TdnnAffine.forward (sqrt : α → α) (neps : α) (m : TdnnAffine α)
    (x : Tensor3 α) : Except PyErr (TdnnAffine α × Tensor3 α) :=
  if x.c ≠ m.input_dim then Except.error PyErr.assertError
  else if ((tdnnPadded m x).t : ℤ) < m.tot_context then Except.error PyErr.assertError
  else
    Except.ok (tdnnStep m,
      conv1d
        (if m.norm_f then normalizeDim1 sqrt neps (tdnnPadded m x) else tdnnPadded m x)
        (if m.norm_w then normalizeDim1 sqrt neps (tdnnMaskedWeight m)
         else tdnnMaskedWeight m)
        m.bias m.stride 1)

/-- The output that the specification asserts for `TdnnAffine.forward`:
`F.conv1d(pad(x), weight * mask, bias, stride)` - the convolution of the
padded input with the mask-filtered weights plus the bias, at stride
`subsampling_factor`, with no further transformation. -/
def tdnnClaimOutput (m : TdnnAffine α) (x : Tensor3 α) : Tensor3 α :=
  conv1d (tdnnPadded m x) (tdnnMaskedWeight m) m.bias m.stride 1

/-- The module state visible after a call of `TdnnAffine.forward` (the input
state when the call raised). -/
def fwdModT (sqrt : α → α) (neps : α) (m : TdnnAffine α) (x : Tensor3 α) :
    TdnnAffine α :=
  match TdnnAffine.forward sqrt neps m x with
  | Except.ok (m2, _) => m2
  | Except.error _ => m

/-- A frame-wise affine map, the claim-side reading of the docstring `If
context is [0], then the TdnnAffine is equal to linear layer`: every frame of
the input is independently multiplied by the weight matrix and shifted by the
bias. -/
def frameLinear (m : TdnnAffine α) (x : Tensor3 α) : Tensor3 α :=
  ⟨x.n, m.output_dim, x.t, fun i o t =>
    (∑ j ∈ Finset.range m.input_dim, m.weight.data o j 0 * x.data i j t) +
      biasV m.bias o⟩

end TdnnAffine

section InitLemmas

variable {α : Type} [LinearOrderedField α]

theorem tdnnLeft_nonpos (c0 : ℤ) : tdnnLeft c0 ≤ 0 := by
  unfold tdnnLeft
  split <;> omega

theorem tdnnRight_nonneg (c0 : ℤ) (rest : List ℤ) : 0 ≤ tdnnRight c0 rest := by
  unfold tdnnRight
  split <;> omega

theorem tdnnTot_pos (c0 : ℤ) (rest : List ℤ) : 0 < tdnnTot c0 rest := by
  have h1 := tdnnLeft_nonpos c0
  have h2 := tdnnRight_nonneg c0 rest
  unfold tdnnTot
  omega

theorem chain_of_not_invalid :
    ∀ l : List ℤ, contextInvalid l = false → List.Chain' (fun a b => a < b) l
  | [], _ => List.chain'_nil
  | [a], _ => List.chain'_singleton a
  | a :: b :: rest, h => by
      simp only [contextInvalid, Bool.or_eq_false_iff, decide_eq_false_iff_not,
        ge_iff_le, not_le] at h
      exact List.chain'_cons.mpr ⟨h.1, chain_of_not_invalid (b :: rest) h.2⟩

theorem not_invalid_of_chain :
    ∀ l : List ℤ, List.Chain' (fun a b => a < b) l → contextInvalid l = false
  | [], _ => rfl
  | [_], _ => rfl
  | a :: b :: rest, h => by
      rcases List.chain'_cons.mp h with ⟨hab, hrest⟩
      simp only [contextInvalid, Bool.or_eq_false_iff, decide_eq_false_iff_not,
        ge_iff_le, not_le]
      exact ⟨hab, not_invalid_of_chain (b :: rest) hrest⟩

/-- Successful construction forces a nonempty, strictly increasing context
and yields exactly the `tdnnMk` state. -/
theorem tdnnAffineInit_ok_elim {i o : ℕ} {ctx : List ℤ} {b p nw nf : Bool}
    {s : ℕ} {w0 : ℕ → ℕ → ℕ → α} {b0 : ℕ → α} {m : TdnnAffine α}
    (h : tdnnAffineInit i o ctx b p nw nf s w0 b0 = Except.ok m) :
    ∃ c0 rest, ctx = c0 :: rest ∧ contextInvalid (c0 :: rest) = false ∧
      m = tdnnMk i o c0 rest b p nw nf s w0 b0 := by
  unfold tdnnAffineInit at h
  by_cases hci : contextInvalid ctx = true
  · rw [if_pos hci] at h
    exact absurd h (by simp)
  · rw [if_neg hci] at h
    cases ctx with
    | nil => simp at h
    | cons c0 rest =>
        refine ⟨c0, rest, rfl, by simpa using hci, ?_⟩
        injection h with h2
        exact h2.symm

end InitLemmas

section OtherModules

variable {α : Type} [LinearOrderedField α]

/-- State stored by `TdnnfBlock.__init__` (components.py lines 148-159).  The
Python constructor stores the two `TdnnAffine` factors but never assigns
`self.input_dim`; the `Option` field models the object's attribute table, in
which that attribute is therefore absent. -/
structure TdnnfBlock (α : Type) where
  factor1 : TdnnAffine α
  factor2 : TdnnAffine α
  input_dim : Option ℕ

/-- `TdnnfBlock.__init__(input_dim, output_dim, inner_size, context_size,
pad)`: factor1 is a bias-free `TdnnAffine` with context `[-context_size, 0]`
(or `[0]`), factor2 has bias and context `[0, context_size]` (or `[0]`);
`self.input_dim` is never written. -/
def tdnnfBlockInit (input_dim output_dim inner_size : ℕ) (context_size : ℤ)
    (pad : Bool) (w1 w2 : ℕ → ℕ → ℕ → α) (b2 : ℕ → α) :
    Except PyErr (TdnnfBlock α) :=
  match tdnnAffineInit input_dim inner_size
      (if 0 < context_size then [-context_size, 0] else [0])
      false pad false false 1 w1 (fun _ => 0) with
  | Except.error e => Except.error e
  | Except.ok f1 =>
    match tdnnAffineInit inner_size output_dim
        (if 0 < context_size then [0, context_size] else [0])
        true pad false false 1 w2 b2 with
    | Except.error e => Except.error e
    | Except.ok f2 => Except.ok { factor1 := f1, factor2 := f2, input_dim := none }

/-- `TdnnfBlock.forward` (components.py lines 161-168): the assert
`inputs.shape[1] == self.input_dim` looks up the attribute `input_dim`,
which `__init__` never assigned, so the lookup raises AttributeError before
anything else happens; the intended body would then run the two factors. -/
def TdnnfBlock.forward (sqrt : α → α) (neps : α) (m : TdnnfBlock α)
    (x : Tensor3 α) : Except PyErr (TdnnfBlock α × Tensor3 α) :=
  match m.input_dim with
  | none => Except.error PyErr.attributeError
  | some d =>
    if x.c ≠ d then Except.error PyErr.assertError
    else
      match TdnnAffine.forward sqrt neps m.factor1 x with
      | Except.error e => Except.error e
      | Except.ok (f1, y1) =>
        match TdnnAffine.forward sqrt neps m.factor2 y1 with
        | Except.error e => Except.error e
        | Except.ok (f2, y2) =>
            Except.ok ({ m with factor1 := f1, factor2 := f2 }, y2)

/-- State stored by `StatisticsPooling.__init__` (components.py lines
345-358). -/
structure StatisticsPooling (α : Type) where
  stddev : Bool
  input_dim : ℕ
  output_dim : ℕ
  eps : α
  unbiased : Bool

/-- `StatisticsPooling.__init__(input_dim, stddev, unbiased, eps)`. -/
def statisticsPoolingInit (input_dim : ℕ) (stddev unbiased : Bool) (eps : α) :
    StatisticsPooling α :=
  { stddev := stddev
    input_dim := input_dim
    output_dim := if stddev then 2 * input_dim else input_dim
    eps := eps
    unbiased := unbiased }

/-- `mean = torch.unsqueeze(inputs.sum(dim=2) / counts, dim=2)` with
`counts = inputs.shape[2]`. -/
def statsMean (x : Tensor3 α) : Tensor3 α :=
  ⟨x.n, x.c, 1, fun i j _ => (∑ k ∈ Finset.range x.t, x.data i j k) / (x.t : α)⟩

/-- The divisor used for the variance: `counts - 1` when `self.unbiased and
counts > 1`, else `counts`. -/
def statsCounts (m : StatisticsPooling α) (x : Tensor3 α) : ℕ :=
  if m.unbiased = true ∧ 1 < x.t then x.t - 1 else x.t

/-- `var = torch.sum((inputs - mean)**2, dim=2) / counts`. -/
def statsVar (m : StatisticsPooling α) (x : Tensor3 α) : ℕ → ℕ → α :=
  fun i j =>
    (∑ k ∈ Finset.range x.t, (x.data i j k - (statsMean x).data i j 0) ^ 2) /
      (statsCounts m x : α)

/-- `std = torch.unsqueeze(torch.sqrt(var.clamp(min=self.eps)), dim=2)`;
`clamp(min=eps)` is `max · eps`. -/
def statsStd (sqrt : α → α) (m : StatisticsPooling α) (x : Tensor3 α) :
    Tensor3 α :=
  ⟨x.n, x.c, 1, fun i j _ => sqrt (max (statsVar m x i j) m.eps)⟩

/-- `StatisticsPooling.forward` (components.py lines 360-385). -/
def StatisticsPooling.forward (sqrt : α → α) (m : StatisticsPooling α)
    (x : Tensor3 α) : Except PyErr (Tensor3 α) :=
  if x.c ≠ m.input_dim then Except.error PyErr.assertError
  else if m.stddev = true then
    Except.ok (cat2 (statsMean x) (statsStd sqrt m x))
  else Except.ok (statsMean x)

/-- The output the specification asserts for `StatisticsPooling.forward`,
written directly as one tensor: with `stddev` a `(N, 2*input_dim, 1)` tensor
whose first half holds the per-channel mean over the `T` frames and whose
second half holds `sqrt(clamp(sum((x - mean)^2)/counts, min=eps))` with
`counts = T` (or `T - 1` when `unbiased` and `T > 1`); without `stddev`
exactly the `(N, input_dim, 1)` mean. -/
def statsClaimOutput (sqrt : α → α) (m : StatisticsPooling α) (x : Tensor3 α) :
    Tensor3 α :=
  if m.stddev = true then
    ⟨x.n, 2 * m.input_dim, 1, fun i j _ =>
      if j < m.input_dim then
        (∑ k ∈ Finset.range x.t, x.data i j k) / (x.t : α)
      else
        sqrt (max
          ((∑ k ∈ Finset.range x.t,
              (x.data i (j - m.input_dim) k -
                (∑ k2 ∈ Finset.range x.t, x.data i (j - m.input_dim) k2) /
                  (x.t : α)) ^ 2) /
            ((if m.unbiased = true ∧ 1 < x.t then x.t - 1 else x.t : ℕ) : α))
          m.eps)⟩
  else
    ⟨x.n, m.input_dim, 1, fun i j _ =>
      (∑ k ∈ Finset.range x.t, x.data i j k) / (x.t : α)⟩

/-- State stored by `AttentiveStatisticsPooling.__init__` (components.py
lines 419-432).  The attention submodule (an `AttentionAlphaComponent`) is
kept as the function its forward computes. -/
structure AttentiveStatisticsPooling (α : Type) where
  stddev : Bool
  input_dim : ℕ
  output_dim : ℕ
  eps : α
  attention : Tensor3 α → Tensor3 α

/-- The broadcast channel index for `alpha * inputs`: the attention output
has one channel, which broadcasts over the input channels. -/
def bIdx (a : Tensor3 α) (j : ℕ) : ℕ := if a.c = 1 then 0 else j

/-- `mean = torch.sum(alpha * inputs, dim=2, keepdim=True)`. -/
def attMean (m : AttentiveStatisticsPooling α) (x : Tensor3 α) : Tensor3 α :=
  ⟨x.n, x.c, 1, fun i j _ =>
    ∑ k ∈ Finset.range x.t,
      (m.attention x).data i (bIdx (m.attention x) j) k * x.data i j k⟩

/-- `var = torch.sum(alpha * inputs**2, dim=2, keepdim=True) - mean**2`. -/
def attVar (m : AttentiveStatisticsPooling α) (x : Tensor3 α) : ℕ → ℕ → α :=
  fun i j =>
    (∑ k ∈ Finset.range x.t,
        (m.attention x).data i (bIdx (m.attention x) j) k * x.data i j k ^ 2) -
      (attMean m x).data i j 0 ^ 2

/-- `std = torch.sqrt(var.clamp(min=self.eps))`. -/
def attStd (sqrt : α → α) (m : AttentiveStatisticsPooling α) (x : Tensor3 α) :
    Tensor3 α :=
  ⟨x.n, x.c, 1, fun i j _ => sqrt (max (attVar m x i j) m.eps)⟩

/-- `AttentiveStatisticsPooling.forward` (components.py lines 434-451). -/
def AttentiveStatisticsPooling.forward (sqrt : α → α)
    (m : AttentiveStatisticsPooling α) (x : Tensor3 α) :
    Except PyErr (Tensor3 α) :=
  if x.c ≠ m.input_dim then Except.error PyErr.assertError
  else if m.stddev = true then
    Except.ok (cat2 (attMean m x) (attStd sqrt m x))
  else Except.ok (attMean m x)

/-- State stored by `ContextDropout.__init__` (components.py lines 517-520):
just the dropout probability of the inner `Dropout2d`. -/
structure ContextDropout (α : Type) where
  p : α

/-- `ContextDropout.__init__(p)`. -/
def contextDropoutInit (p : α) : ContextDropout α := ⟨p⟩

/-- `ContextDropout.forward` (components.py lines 522-527).  The Python
signature names its parameter `intputs`, while the body evaluates
`self.dropout2d(inputs.transpose(1,2)).transpose(1,2)` - `inputs` is an
undefined name there, so every call raises NameError before any dropout is
applied. -/
def ContextDropout.forward (m : ContextDropout α) (intputs : Tensor3 α) :
    Except PyErr (Tensor3 α) :=
  Except.error PyErr.nameError

/-- State stored by `AdaptivePCMN.__init__` (components.py lines 535-562),
including the attributes `beta`, `alpha`, `mu_n_0` that `forward` later
writes (absent until the first call). -/
structure AdaptivePCMN (α : Type) where
  left_context : ℤ
  right_context : ℤ
  tot_context : ℤ
  input_dim : ℕ
  pad : Bool
  groups : ℕ
  beta_w : Tensor3 α
  alpha_w : Tensor3 α
  mu_n_0_w : Tensor3 α
  bias : ℕ → α
  beta : Option (Tensor3 α)
  alpha : Option (Tensor3 α)
  mu_n_0 : Option (Tensor3 α)

/-- `AdaptivePCMN.forward` (components.py lines 570-591): shape asserts,
replicate padding (or slicing when `pad` is off), three grouped
convolutions stored into `self.beta`, `self.alpha`, `self.mu_n_0`, and the
output `beta * inputs - alpha * mu_n_0`. -/
def AdaptivePCMN.forward (m : AdaptivePCMN α) (x : Tensor3 α) :
    Except PyErr (AdaptivePCMN α × Tensor3 α) :=
  if x.c ≠ m.input_dim then Except.error PyErr.assertError
  else if (x.t : ℤ) < m.tot_context then Except.error PyErr.assertError
  else
    Except.ok (
      { m with
          beta := some (addC (conv1d
            (if m.pad then padReplicate x (-m.left_context).toNat m.right_context.toNat else x)
            m.beta_w (some m.bias) 1 m.groups) 1)
          alpha := some (conv1d
            (if m.pad then padReplicate x (-m.left_context).toNat m.right_context.toNat else x)
            m.alpha_w (some m.bias) 1 m.groups)
          mu_n_0 := some (conv1d
            (if m.pad then padReplicate x (-m.left_context).toNat m.right_context.toNat else x)
            m.mu_n_0_w (some m.bias) 1 m.groups) },
      sub3
        (mul3
          (addC (conv1d
            (if m.pad then padReplicate x (-m.left_context).toNat m.right_context.toNat else x)
            m.beta_w (some m.bias) 1 m.groups) 1)
          (if m.pad then x else slice3 x (-m.left_context).toNat (x.t - m.right_context.toNat)))
        (mul3
          (conv1d
            (if m.pad then padReplicate x (-m.left_context).toNat m.right_context.toNat else x)
            m.alpha_w (some m.bias) 1 m.groups)
          (conv1d
            (if m.pad then padReplicate x (-m.left_context).toNat m.right_context.toNat else x)
            m.mu_n_0_w (some m.bias) 1 m.groups)))

/-- The module state visible after a call of `AdaptivePCMN.forward`. -/
def pcmnFwdMod (m : AdaptivePCMN α) (x : Tensor3 α) : AdaptivePCMN α :=
  match AdaptivePCMN.forward m x with
  | Except.ok (m2, _) => m2
  | Except.error _ => m

/-- The part of the `SEBlock` state that `__init__` manages to build before
it fails (components.py lines 601-612). -/
structure SEBlock (α : Type) where
  input_dim : ℕ
  stats : StatisticsPooling α

/-- `SEBlock.__init__(input_dim, ratio)`: it stores `input_dim` and a
`StatisticsPooling(input_dim, stddev=False)`, and then evaluates
`ReluBactchNormTdnnLayer(input_dim, input_dim // ratio)` - a misspelling of
`ReluBatchNormTdnnLayer` that is not defined anywhere, so the constructor
raises NameError for every argument pair and never returns a module. -/
def seBlockInit (input_dim ratioArg : ℕ) : Except PyErr (SEBlock α) :=
  Except.error PyErr.nameError

end OtherModules

section ConcreteValues

/-- A placeholder `TdnnAffine` state used only as the default of result
extractors. -/
def dummyTdnn : TdnnAffine ℚ :=
  { input_dim := 0, output_dim := 0, context := [], bool_bias := false,
    pad := false, norm_w := false, norm_f := false, stride := 1,
    left_context := 0, right_context := 0, tot_context := 1,
    weight := ⟨0, 0, 0, fun _ _ _ => 0⟩, bias := none, mask := none,
    selected_device := false }

/-- Extract the constructed module from `tdnnAffineInit`. -/
def getInitM (r : Except PyErr (TdnnAffine ℚ)) : TdnnAffine ℚ :=
  match r with
  | Except.ok m => m
  | Except.error _ => dummyTdnn

/-- Extract the output tensor of a `TdnnAffine.forward` call. -/
def getOutT (r : Except PyErr (TdnnAffine ℚ × Tensor3 ℚ)) : Tensor3 ℚ :=
  match r with
  | Except.ok (_, y) => y
  | Except.error _ => ⟨0, 0, 0, fun _ _ _ => 0⟩

/-- Extract the constructed block from `tdnnfBlockInit`. -/
def getBlk (r : Except PyErr (TdnnfBlock ℚ)) : TdnnfBlock ℚ :=
  match r with
  | Except.ok m => m
  | Except.error _ => { factor1 := dummyTdnn, factor2 := dummyTdnn, input_dim := none }

end ConcreteValues

section ForwardLemmas

variable {α : Type} [LinearOrderedField α]

theorem iteNorm_n (c : Prop) [Decidable c] (sqrt : α → α) (e : α) (x : Tensor3 α) :
    (if c then normalizeDim1 sqrt e x else x).n = x.n := by
  split <;> rfl

theorem iteNorm_c (c : Prop) [Decidable c] (sqrt : α → α) (e : α) (x : Tensor3 α) :
    (if c then normalizeDim1 sqrt e x else x).c = x.c := by
  split <;> rfl

theorem iteNorm_t (c : Prop) [Decidable c] (sqrt : α → α) (e : α) (x : Tensor3 α) :
    (if c then normalizeDim1 sqrt e x else x).t = x.t := by
  split <;> rfl

theorem tdnnMaskedWeight_n (m : TdnnAffine α) : (tdnnMaskedWeight m).n = m.weight.n := by
  unfold tdnnMaskedWeight
  cases m.mask <;> rfl

theorem tdnnMaskedWeight_t (m : TdnnAffine α) : (tdnnMaskedWeight m).t = m.weight.t := by
  unfold tdnnMaskedWeight
  cases m.mask <;> rfl

theorem tdnnPadded_n (m : TdnnAffine α) (x : Tensor3 α) : (tdnnPadded m x).n = x.n := by
  unfold tdnnPadded
  split <;> rfl

/-- When both asserts pass, `TdnnAffine.forward` returns the updated state
and the convolution of the (possibly normalized) padded input with the
(possibly normalized) masked weights. -/
theorem tdnnForward_ok (sqrt : α → α) (neps : α) (m : TdnnAffine α) (x : Tensor3 α)
    (hc : x.c = m.input_dim) (ht : m.tot_context ≤ ((tdnnPadded m x).t : ℤ)) :
    TdnnAffine.forward sqrt neps m x = Except.ok (tdnnStep m,
      conv1d
        (if m.norm_f = true then normalizeDim1 sqrt neps (tdnnPadded m x) else tdnnPadded m x)
        (if m.norm_w = true then normalizeDim1 sqrt neps (tdnnMaskedWeight m)
         else tdnnMaskedWeight m)
        m.bias m.stride 1) := by
  unfold TdnnAffine.forward
  rw [if_neg (fun h => h hc), if_neg (not_lt.mpr ht)]

end ForwardLemmas

/-- C1 (amended): for a `TdnnAffine` built with valid constructor arguments
and with `norm_w = False` and `norm_f = False`, on every 3-d input of
channel count `input_dim` whose (padded, when `pad`) frame count is at least
`tot_context`, `forward` returns exactly
`F.conv1d(pad(x), weight * mask, bias, stride)` - the host convolution of
the zero-padded input with the mask-filtered weights plus the bias at stride
`subsampling_factor` - together with the device-bookkeeping state update.
The original claim, quantified over all valid constructor arguments, fails
when `norm_w=True` (see the counterexample): the filters are then L2
normalized before the convolution. -/
theorem claim_C1_tdnn_forward_conv {α : Type} [LinearOrderedField α]
    (sqrt : α → α) (neps : α) (i o : ℕ) (ctx : List ℤ) (b p : Bool) (s : ℕ)
    (w0 : ℕ → ℕ → ℕ → α) (b0 : ℕ → α) (m : TdnnAffine α) (x : Tensor3 α)
    (hinit : tdnnAffineInit i o ctx b p false false s w0 b0 = Except.ok m)
    (hc : x.c = m.input_dim)
    (ht : m.tot_context ≤ ((tdnnPadded m x).t : ℤ)) :
    TdnnAffine.forward sqrt neps m x = Except.ok (tdnnStep m, tdnnClaimOutput m x) := by
  obtain ⟨c0, rest, rfl, hci, hm⟩ := tdnnAffineInit_ok_elim hinit
  have hnw : m.norm_w = false := by
    rw [hm]
    rfl
  have hnf : m.norm_f = false := by
    rw [hm]
    simp [tdnnMk]
  rw [tdnnForward_ok sqrt neps m x hc ht, tdnnClaimOutput, hnw, hnf]
  simp

/-- C1 witness: a concrete run of the amended statement.  The module is
`TdnnAffine(1, 1, [-1, 0, 1])` with all-ones weights and zero bias on a
`(1, 1, 3)` input. -/
def c1wW : ℕ → ℕ → ℕ → ℚ := fun _ _ _ => 1

def c1wB : ℕ → ℚ := fun _ => 0

def c1wM : TdnnAffine ℚ := tdnnMk 1 1 (-1) [0, 1] true true false false 1 c1wW c1wB

def c1wX : Tensor3 ℚ := ⟨1, 1, 3, fun _ _ k => (k : ℚ) + 1⟩

theorem claim_C1_witness :
    TdnnAffine.forward hostSqrtQ normEps c1wM c1wX =
      Except.ok (tdnnStep c1wM, tdnnClaimOutput c1wM c1wX) :=
  claim_C1_tdnn_forward_conv hostSqrtQ normEps 1 1 [-1, 0, 1] true true 1
    c1wW c1wB c1wM c1wX (by rfl) (by rfl) (by decide)

/-- The host square root of 4 is 2; used to evaluate `F.normalize` on a
concrete weight column. -/
theorem hostSqrtQ_four : hostSqrtQ 4 = 2 := by
  have h4 : Int.sqrt 4 = 2 := by
    rw [show (4 : ℤ) = 2 * 2 by norm_num, Int.sqrt_eq]
    rfl
  have h1 : Nat.sqrt 1 = 1 := by
    rw [show (1 : ℕ) = 1 * 1 from rfl, Nat.sqrt_eq]
  have h4n : Nat.sqrt 4 = 2 := by
    rw [show (4 : ℕ) = 2 * 2 from rfl, Nat.sqrt_eq]
  simp [hostSqrtQ, h4, h1, h4n]

/-- C1 counterexample data: `TdnnAffine(1, 1, [0], norm_w=True)` with weight
entries 2 and zero bias, on the all-ones `(1, 1, 1)` input. -/
def c1cW : ℕ → ℕ → ℕ → ℚ := fun _ _ _ => 2

def c1cM : TdnnAffine ℚ := tdnnMk 1 1 0 [] true true true false 1 c1cW c1wB

def c1cX : Tensor3 ℚ := ⟨1, 1, 1, fun _ _ _ => 1⟩

/-- C1 counterexample: with `norm_w=True` (a valid constructor argument) the
forward output is not `F.conv1d(pad(x), weight * mask, bias, stride)`: the
weight column `[2]` is L2 normalized to `[1]` before the convolution, so the
output entry is 1 while the claimed formula gives 2. -/
theorem claim_C1_counterexample :
    tdnnAffineInit 1 1 [0] true true true false 1 c1cW c1wB = Except.ok c1cM ∧
    TdnnAffine.forward hostSqrtQ normEps c1cM c1cX =
      Except.ok (c1cM, getOutT (TdnnAffine.forward hostSqrtQ normEps c1cM c1cX)) ∧
    ¬ (getOutT (TdnnAffine.forward hostSqrtQ normEps c1cM c1cX)).EqT
        (tdnnClaimOutput c1cM c1cX) := by
  refine ⟨rfl, rfl, ?_⟩
  intro h
  have h1 : (getOutT (TdnnAffine.forward hostSqrtQ normEps c1cM c1cX)).data 0 0 0 = 1 := by
    simp [TdnnAffine.forward, getOutT, conv1d, c1cM, tdnnMk, tdnnStep, tdnnMaskedWeight,
      tdnnPadded, padConst, normalizeDim1, biasV, c1cW, c1wB, c1cX, tdnnTot, tdnnRight,
      tdnnLeft, Finset.sum_range_one, normEps, hostSqrtQ_four]
    norm_num [hostSqrtQ_four]
  have h2 : (tdnnClaimOutput c1cM c1cX).data 0 0 0 = 2 := by
    simp [tdnnClaimOutput, conv1d, c1cM, tdnnMk, tdnnMaskedWeight, tdnnPadded, padConst,
      biasV, c1cW, c1wB, c1cX, tdnnTot, tdnnRight, tdnnLeft, Finset.sum_range_one]
  have h3 := h.2.2.2 0 (by decide) 0 (by decide) 0 (by decide)
  rw [h1, h2] at h3
  norm_num at h3

/-- C7 (confirmed): a `TdnnAffine` constructed with `pad=True` and
`subsampling_factor=1` preserves the frame count: on every `(N, input_dim,
T)` input with `T >= 1`, forward returns a `(N, output_dim, T)` tensor - the
input is padded by exactly `tot_context - 1` frames before the stride-1
convolution. -/
theorem claim_C7_shape_preserved {α : Type} [LinearOrderedField α]
    (sqrt : α → α) (neps : α) (i o : ℕ) (ctx : List ℤ) (b nw nf : Bool)
    (w0 : ℕ → ℕ → ℕ → α) (b0 : ℕ → α) (m : TdnnAffine α) (x : Tensor3 α)
    (hinit : tdnnAffineInit i o ctx b true nw nf 1 w0 b0 = Except.ok m)
    (hc : x.c = i) (hT : 1 ≤ x.t) :
    ∃ y, TdnnAffine.forward sqrt neps m x = Except.ok (tdnnStep m, y) ∧
      y.n = x.n ∧ y.c = m.output_dim ∧ y.t = x.t := by
  obtain ⟨c0, rest, rfl, hci, hm⟩ := tdnnAffineInit_ok_elim hinit
  have hl := tdnnLeft_nonpos c0
  have hr := tdnnRight_nonneg c0 rest
  have htot : tdnnTot c0 rest = tdnnRight c0 rest - tdnnLeft c0 + 1 := rfl
  have hpt : (tdnnPadded m x).t =
      x.t + (-(tdnnLeft c0)).toNat + (tdnnRight c0 rest).toNat := by
    rw [hm]
    rfl
  have hic : x.c = m.input_dim := by
    rw [hm]
    exact hc
  have htc : m.tot_context ≤ ((tdnnPadded m x).t : ℤ) := by
    rw [hpt]
    have h2 : m.tot_context = tdnnTot c0 rest := by
      rw [hm]
      rfl
    rw [h2, htot]
    push_cast
    omega
  refine ⟨_, tdnnForward_ok sqrt neps m x hic htc, ?_, ?_, ?_⟩
  · show (if m.norm_f = true then normalizeDim1 sqrt neps (tdnnPadded m x)
        else tdnnPadded m x).n = x.n
    rw [iteNorm_n, tdnnPadded_n]
  · show (if m.norm_w = true then normalizeDim1 sqrt neps (tdnnMaskedWeight m)
        else tdnnMaskedWeight m).n = m.output_dim
    rw [iteNorm_n, tdnnMaskedWeight_n, hm]
    rfl
  · show ((if m.norm_f = true then normalizeDim1 sqrt neps (tdnnPadded m x)
        else tdnnPadded m x).t -
      (if m.norm_w = true then normalizeDim1 sqrt neps (tdnnMaskedWeight m)
        else tdnnMaskedWeight m).t) / m.stride + 1 = x.t
    rw [iteNorm_t, iteNorm_t, tdnnMaskedWeight_t, hpt]
    have hwt : m.weight.t = (tdnnTot c0 rest).toNat := by
      rw [hm]
      rfl
    have hs : m.stride = 1 := by
      rw [hm]
      rfl
    rw [hwt, hs, Nat.div_one, htot]
    omega

/-- C7 witness: `TdnnAffine(2, 3, [-2, 0, 2], pad=True)` on a `(1, 2, 1)`
input keeps the single frame. -/
def c7wM : TdnnAffine ℚ := tdnnMk 2 3 (-2) [0, 2] true true false false 1 c1wW c1wB

def c7wX : Tensor3 ℚ := ⟨1, 2, 1, fun _ _ _ => 1⟩

theorem claim_C7_witness :
    ∃ y, TdnnAffine.forward hostSqrtQ normEps c7wM c7wX = Except.ok (tdnnStep c7wM, y) ∧
      y.n = c7wX.n ∧ y.c = c7wM.output_dim ∧ y.t = c7wX.t :=
  claim_C7_shape_preserved hostSqrtQ normEps 2 3 [-2, 0, 2] true false false
    c1wW c1wB c7wM c7wX (by rfl) (by rfl) (by decide)

theorem tdnnPadded_c {α : Type} [LinearOrderedField α] (m : TdnnAffine α) (x : Tensor3 α) :
    (tdnnPadded m x).c = x.c := by
  unfold tdnnPadded
  split <;> rfl

/-- C8 (amended): a `TdnnAffine` constructed with `context=[0]`,
`subsampling_factor=1`, `norm_w=False` and `norm_f=False` is extensionally a
frame-wise affine map: on every valid `(N, input_dim, T)` input with
`T >= 1`, the output equals `weight · input[n,:,t] + bias` frame by frame
(and the module state is unchanged, since `context=[0]` allocates no mask).
The original claim, quantified over every module with `context=[0]`, fails
for `subsampling_factor > 1` (see the counterexample): the output then has
fewer frames than the input. -/
theorem claim_C8_framewise_affine {α : Type} [LinearOrderedField α]
    (sqrt : α → α) (neps : α) (i o : ℕ) (b p : Bool)
    (w0 : ℕ → ℕ → ℕ → α) (b0 : ℕ → α) (m : TdnnAffine α) (x : Tensor3 α)
    (hinit : tdnnAffineInit i o [0] b p false false 1 w0 b0 = Except.ok m)
    (hc : x.c = i) (hT : 1 ≤ x.t) :
    ∃ y, TdnnAffine.forward sqrt neps m x = Except.ok (m, y) ∧
      y.EqT (frameLinear m x) := by
  obtain ⟨c0, rest, hctx, hci, hm⟩ := tdnnAffineInit_ok_elim hinit
  injection hctx with h0 hrest
  subst h0
  subst hrest
  subst hm
  have hpt : (tdnnPadded (tdnnMk i o 0 [] b p false false 1 w0 b0) x).t = x.t := by
    unfold tdnnPadded
    split <;> rfl
  have hic : x.c = (tdnnMk i o 0 [] b p false false 1 w0 b0).input_dim := hc
  have htc : (tdnnMk i o 0 [] b p false false 1 w0 b0).tot_context ≤
      ((tdnnPadded (tdnnMk i o 0 [] b p false false 1 w0 b0) x).t : ℤ) := by
    rw [hpt]
    show (1 : ℤ) ≤ (x.t : ℤ)
    exact_mod_cast hT
  have hdat : ∀ i2 j k, k < x.t →
      (tdnnPadded (tdnnMk i o 0 [] b p false false 1 w0 b0) x).data i2 j k =
        x.data i2 j k := by
    intro i2 j k hk
    unfold tdnnPadded
    split
    · show (if 0 ≤ k ∧ k < 0 + x.t then x.data i2 j (k - 0) else 0) = x.data i2 j k
      rw [if_pos ⟨Nat.zero_le k, by omega⟩, Nat.sub_zero]
    · rfl
  refine ⟨conv1d (tdnnPadded (tdnnMk i o 0 [] b p false false 1 w0 b0) x)
      (tdnnMk i o 0 [] b p false false 1 w0 b0).weight
      (tdnnMk i o 0 [] b p false false 1 w0 b0).bias 1 1, ?_, ?_, ?_, ?_, ?_⟩
  · rw [tdnnForward_ok sqrt neps _ x hic htc]
    rfl
  · show (tdnnPadded (tdnnMk i o 0 [] b p false false 1 w0 b0) x).n = x.n
    exact tdnnPadded_n _ x
  · rfl
  · show ((tdnnPadded (tdnnMk i o 0 [] b p false false 1 w0 b0) x).t -
        (tdnnMk i o 0 [] b p false false 1 w0 b0).weight.t) / 1 + 1 = x.t
    rw [hpt, Nat.div_one]
    have hwt1 : (tdnnMk i o 0 [] b p false false 1 w0 b0).weight.t = 1 := rfl
    rw [hwt1]
    omega
  · intro i2 hi2 o2 ho2 k hk
    have hconvt : (conv1d (tdnnPadded (tdnnMk i o 0 [] b p false false 1 w0 b0) x)
        (tdnnMk i o 0 [] b p false false 1 w0 b0).weight
        (tdnnMk i o 0 [] b p false false 1 w0 b0).bias 1 1).t = x.t := by
      show ((tdnnPadded (tdnnMk i o 0 [] b p false false 1 w0 b0) x).t -
          (tdnnMk i o 0 [] b p false false 1 w0 b0).weight.t) / 1 + 1 = x.t
      rw [hpt, Nat.div_one]
      have hwt1 : (tdnnMk i o 0 [] b p false false 1 w0 b0).weight.t = 1 := rfl
      rw [hwt1]
      omega
    have hkx : k < x.t := by
      rw [hconvt] at hk
      exact hk
    have ho2o : o2 < o := by
      exact ho2
    show biasV (tdnnMk i o 0 [] b p false false 1 w0 b0).bias o2 +
        ∑ j ∈ Finset.range (tdnnMk i o 0 [] b p false false 1 w0 b0).weight.c,
          ∑ u ∈ Finset.range (tdnnMk i o 0 [] b p false false 1 w0 b0).weight.t,
            (tdnnMk i o 0 [] b p false false 1 w0 b0).weight.data o2 j u *
              (tdnnPadded (tdnnMk i o 0 [] b p false false 1 w0 b0) x).data i2
                (o2 / ((tdnnMk i o 0 [] b p false false 1 w0 b0).weight.n / 1) *
                    (tdnnMk i o 0 [] b p false false 1 w0 b0).weight.c + j)
                (k * 1 + u) = _
    have hwt1 : (tdnnMk i o 0 [] b p false false 1 w0 b0).weight.t = 1 := rfl
    have hwn : (tdnnMk i o 0 [] b p false false 1 w0 b0).weight.n = o := rfl
    have hwc : (tdnnMk i o 0 [] b p false false 1 w0 b0).weight.c = i := rfl
    rw [hwt1, hwn, hwc, Nat.div_one]
    simp only [Finset.sum_range_one, Nat.div_eq_of_lt ho2o, Nat.zero_mul, Nat.zero_add,
      Nat.mul_one, Nat.add_zero]
    have hcong : ∀ j ∈ Finset.range i,
        (tdnnMk i o 0 [] b p false false 1 w0 b0).weight.data o2 j 0 *
            (tdnnPadded (tdnnMk i o 0 [] b p false false 1 w0 b0) x).data i2 j k =
          (tdnnMk i o 0 [] b p false false 1 w0 b0).weight.data o2 j 0 *
            x.data i2 j k := by
      intro j hj
      rw [hdat i2 j k hkx]
    rw [Finset.sum_congr rfl hcong]
    exact add_comm _ _

/-- C8 witness: `TdnnAffine(1, 1, [0])` with all-ones weights on a
`(1, 1, 2)` input. -/
def c8wM : TdnnAffine ℚ := tdnnMk 1 1 0 [] true true false false 1 c1wW c1wB

def c8wX : Tensor3 ℚ := ⟨1, 1, 2, fun _ _ k => (k : ℚ)⟩

theorem claim_C8_witness :
    ∃ y, TdnnAffine.forward hostSqrtQ normEps c8wM c8wX = Except.ok (c8wM, y) ∧
      y.EqT (frameLinear c8wM c8wX) :=
  claim_C8_framewise_affine hostSqrtQ normEps 1 1 true true c1wW c1wB c8wM c8wX
    (by rfl) (by rfl) (by decide)

/-- C8 counterexample data: `TdnnAffine(1, 1, [0], subsampling_factor=2)` on
a `(1, 1, 2)` input. -/
def c8cM : TdnnAffine ℚ := tdnnMk 1 1 0 [] true true false false 2 c1wW c1wB

/-- C8 counterexample: with `context=[0]` but `subsampling_factor=2` (a
valid constructor argument) the forward output has 1 frame while the input
has 2, so it is not the frame-wise affine map of the input. -/
theorem claim_C8_counterexample :
    tdnnAffineInit 1 1 [0] true true false false 2 c1wW c1wB = Except.ok c8cM ∧
    TdnnAffine.forward hostSqrtQ normEps c8cM c8wX =
      Except.ok (c8cM, getOutT (TdnnAffine.forward hostSqrtQ normEps c8cM c8wX)) ∧
    ¬ (getOutT (TdnnAffine.forward hostSqrtQ normEps c8cM c8wX)).EqT
        (frameLinear c8cM c8wX) := by
  refine ⟨rfl, rfl, ?_⟩
  intro h
  have ht : (getOutT (TdnnAffine.forward hostSqrtQ normEps c8cM c8wX)).t ≠
      (frameLinear c8cM c8wX).t := by decide
  exact ht h.2.2.1

/-- C10 (amended): the `TdnnAffine` constructor requires a strictly
increasing context: whenever some context element is greater than or equal
to its successor, construction terminates the process via `exit()`; for
every NONEMPTY strictly increasing context it returns a module whose weight
parameter has shape `(output_dim, input_dim, right_context - left_context +
1)`.  The original claim, which also covers the (vacuously strictly
increasing) empty context, fails there: `context[0]` raises a catchable
IndexError (see the counterexample). -/
theorem claim_C10_context_check {α : Type} [LinearOrderedField α] :
    (∀ (ctx : List ℤ) (i o : ℕ) (b p nw nf : Bool) (s : ℕ)
        (w0 : ℕ → ℕ → ℕ → α) (b0 : ℕ → α),
      (∃ idx, ∃ h : idx + 1 < ctx.length,
          ctx.get ⟨idx + 1, h⟩ ≤ ctx.get ⟨idx, Nat.lt_of_succ_lt h⟩) →
      tdnnAffineInit i o ctx b p nw nf s w0 b0 = Except.error PyErr.processExit)
    ∧ (∀ (ctx : List ℤ) (i o : ℕ) (b p nw nf : Bool) (s : ℕ)
        (w0 : ℕ → ℕ → ℕ → α) (b0 : ℕ → α),
      ctx ≠ [] → List.Chain' (fun a b2 => a < b2) ctx →
      ∃ m, tdnnAffineInit i o ctx b p nw nf s w0 b0 = Except.ok m ∧
        m.weight.n = o ∧ m.weight.c = i ∧
        (m.weight.t : ℤ) = m.right_context - m.left_context + 1) := by
  constructor
  · intro ctx i o b p nw nf s w0 b0 hviol
    have hinv : contextInvalid ctx = true := by
      by_contra hfalse
      have hch := chain_of_not_invalid ctx (by simpa using hfalse)
      obtain ⟨idx, h, hle⟩ := hviol
      have hlt := List.chain'_iff_get.mp hch idx (by omega)
      exact absurd hlt (not_lt.mpr hle)
    unfold tdnnAffineInit
    rw [if_pos hinv]
  · intro ctx i o b p nw nf s w0 b0 hne hch
    cases ctx with
    | nil => exact absurd rfl hne
    | cons c0 rest =>
      refine ⟨tdnnMk i o c0 rest b p nw nf s w0 b0, ?_, rfl, rfl, ?_⟩
      · unfold tdnnAffineInit
        rw [if_neg (by simp [not_invalid_of_chain (c0 :: rest) hch])]
      · show (((tdnnTot c0 rest).toNat : ℕ) : ℤ) =
          tdnnRight c0 rest - tdnnLeft c0 + 1
        have hpos := tdnnTot_pos c0 rest
        have htot : tdnnTot c0 rest = tdnnRight c0 rest - tdnnLeft c0 + 1 := rfl
        omega

/-- C10 witness: `[5, 1]` (decreasing) exits the process, while `[-2, 0, 2]`
yields a module with a `(3, 2, 5)` weight tensor. -/
theorem claim_C10_witness :
    tdnnAffineInit 2 3 [5, 1] true true false false 1 c1wW c1wB =
        Except.error PyErr.processExit ∧
      ∃ m, tdnnAffineInit 2 3 [-2, 0, 2] true true false false 1 c1wW c1wB =
          Except.ok m ∧
        m.weight.n = 3 ∧ m.weight.c = 2 ∧
        (m.weight.t : ℤ) = m.right_context - m.left_context + 1 :=
  ⟨claim_C10_context_check.1 [5, 1] 2 3 true true false false 1 c1wW c1wB
      ⟨0, by decide, by decide⟩,
    claim_C10_context_check.2 [-2, 0, 2] 2 3 true true false false 1 c1wW c1wB
      (by decide)
      (List.chain'_cons.mpr ⟨by norm_num,
        List.chain'_cons.mpr ⟨by norm_num, List.chain'_singleton 2⟩⟩)⟩

/-- C10 counterexample: the empty context is vacuously strictly increasing,
yet construction neither exits nor returns a module: `self.left_context =
context[0]` raises IndexError. -/
theorem claim_C10_counterexample :
    List.Chain' (fun a b2 : ℤ => a < b2) [] ∧
      tdnnAffineInit (α := ℚ) 3 4 [] true true false false 1 c1wW c1wB =
        Except.error PyErr.indexError :=
  ⟨List.chain'_nil, rfl⟩

/-- C2 (confirmed): on every `(N, input_dim, T)` input with `T >= 1`,
`StatisticsPooling.forward` returns, when `stddev=True`, the
`(N, 2*input_dim, 1)` concatenation of the per-channel mean over the `T`
frames with `sqrt(clamp(sum((x - mean)^2)/counts, min=eps))` where `counts`
is `T` (or `T - 1` when `unbiased=True` and `T > 1`), and, when
`stddev=False`, exactly the `(N, input_dim, 1)` per-channel mean. -/
theorem claim_C2_stats_pooling {α : Type} [LinearOrderedField α]
    (sqrt : α → α) (m : StatisticsPooling α) (x : Tensor3 α)
    (hc : x.c = m.input_dim) (hT : 1 ≤ x.t) :
    ∃ y, StatisticsPooling.forward sqrt m x = Except.ok y ∧
      y.EqT (statsClaimOutput sqrt m x) := by
  unfold StatisticsPooling.forward
  rw [if_neg (fun h => h hc)]
  cases hstd : m.stddev with
  | true =>
    rw [if_pos rfl]
    refine ⟨_, rfl, ?_⟩
    unfold statsClaimOutput
    rw [if_pos hstd]
    refine ⟨rfl, ?_, rfl, ?_⟩
    · show x.c + x.c = 2 * m.input_dim
      omega
    · intro i2 hi2 j hj k hk
      simp only [cat2, statsMean, statsStd, statsVar, statsCounts, hc]
  | false =>
    rw [if_neg (by simp [hstd])]
    refine ⟨_, rfl, ?_⟩
    unfold statsClaimOutput
    rw [if_neg (by simp [hstd])]
    exact ⟨rfl, hc, rfl, fun i2 hi2 j hj k hk => rfl⟩

/-- C2 witness: `StatisticsPooling(1, stddev=True)` on a `(1, 1, 2)`
input. -/
def c2wM : StatisticsPooling ℚ := statisticsPoolingInit 1 true false (1 / 10 ^ 10)

def c2wX : Tensor3 ℚ := ⟨1, 1, 2, fun _ _ k => 2 * (k : ℚ) + 1⟩

theorem claim_C2_witness :
    ∃ y, StatisticsPooling.forward hostSqrtQ c2wM c2wX = Except.ok y ∧
      y.EqT (statsClaimOutput hostSqrtQ c2wM c2wX) :=
  claim_C2_stats_pooling hostSqrtQ c2wM c2wX (by rfl) (by decide)

/-- C9 (confirmed): in both `StatisticsPooling` and
`AttentiveStatisticsPooling` with `stddev=True`, the computed variance is
clamped to at least `eps` before the square root is taken: every entry of
the standard-deviation half of the output is `sqrt v` for some `v >= eps`
(so the square root is never applied to a negative number), and for any
monotone host square root that is positive on positives it is at least
`sqrt eps > 0`.  Stated pointwise at an arbitrary index of the stddev
half. -/
theorem claim_C9_clamped_sqrt {α : Type} [LinearOrderedField α]
    (sqrt : α → α) (hmono : Monotone sqrt)
    (hpos : ∀ a : α, 0 < a → 0 < sqrt a)
    (ms : StatisticsPooling α) (xs : Tensor3 α)
    (ma : AttentiveStatisticsPooling α) (xa : Tensor3 α)
    (i j i2 j2 : ℕ)
    (hms : ms.stddev = true) (hes : 0 < ms.eps) (hcs : xs.c = ms.input_dim)
    (hjs1 : ms.input_dim ≤ j) (hjs2 : j < 2 * ms.input_dim)
    (hma : ma.stddev = true) (hea : 0 < ma.eps) (hca : xa.c = ma.input_dim)
    (hja1 : ma.input_dim ≤ j2) (hja2 : j2 < 2 * ma.input_dim) :
    (∃ y, StatisticsPooling.forward sqrt ms xs = Except.ok y ∧
      ∃ v, ms.eps ≤ v ∧ y.data i j 0 = sqrt v ∧
        sqrt ms.eps ≤ y.data i j 0 ∧ 0 < y.data i j 0)
    ∧ (∃ y, AttentiveStatisticsPooling.forward sqrt ma xa = Except.ok y ∧
      ∃ v, ma.eps ≤ v ∧ y.data i2 j2 0 = sqrt v ∧
        sqrt ma.eps ≤ y.data i2 j2 0 ∧ 0 < y.data i2 j2 0) := by
  constructor
  · refine ⟨cat2 (statsMean xs) (statsStd sqrt ms xs), ?_, ?_⟩
    · unfold StatisticsPooling.forward
      rw [if_neg (fun h => h hcs), if_pos hms]
    · have hdata : (cat2 (statsMean xs) (statsStd sqrt ms xs)).data i j 0 =
          sqrt (max (statsVar ms xs i (j - xs.c)) ms.eps) := by
        unfold cat2 statsStd
        show (if j < (statsMean xs).c then (statsMean xs).data i j 0
            else sqrt (max (statsVar ms xs i (j - (statsMean xs).c)) ms.eps)) = _
        rw [if_neg (show ¬ j < (statsMean xs).c by
          show ¬ j < xs.c
          omega)]
        rfl
      refine ⟨max (statsVar ms xs i (j - xs.c)) ms.eps, le_max_right _ _, hdata, ?_, ?_⟩
      · rw [hdata]
        exact hmono (le_max_right _ _)
      · rw [hdata]
        exact lt_of_lt_of_le (hpos ms.eps hes) (hmono (le_max_right _ _))
  · refine ⟨cat2 (attMean ma xa) (attStd sqrt ma xa), ?_, ?_⟩
    · unfold AttentiveStatisticsPooling.forward
      rw [if_neg (fun h => h hca), if_pos hma]
    · have hdata : (cat2 (attMean ma xa) (attStd sqrt ma xa)).data i2 j2 0 =
          sqrt (max (attVar ma xa i2 (j2 - xa.c)) ma.eps) := by
        unfold cat2 attStd
        show (if j2 < (attMean ma xa).c then (attMean ma xa).data i2 j2 0
            else sqrt (max (attVar ma xa i2 (j2 - (attMean ma xa).c)) ma.eps)) = _
        rw [if_neg (show ¬ j2 < (attMean ma xa).c by
          show ¬ j2 < xa.c
          omega)]
        rfl
      refine ⟨max (attVar ma xa i2 (j2 - xa.c)) ma.eps, le_max_right _ _, hdata, ?_, ?_⟩
      · rw [hdata]
        exact hmono (le_max_right _ _)
      · rw [hdata]
        exact lt_of_lt_of_le (hpos ma.eps hea) (hmono (le_max_right _ _))

/-- A monotone stand-in for the host square root, positive on positives;
used only to instantiate the abstract square root of the C9 statement. -/
def sqrtStand (q : ℚ) : ℚ := max q 0

theorem sqrtStand_monotone : Monotone sqrtStand :=
  monotone_id.max monotone_const

theorem sqrtStand_pos : ∀ a : ℚ, 0 < a → 0 < sqrtStand a :=
  fun a ha => lt_max_iff.mpr (Or.inl ha)

/-- C9 witness: concrete pooling modules with `eps = 1e-10` on concrete
inputs, at index `(0, 1)` of the stddev half. -/
def c9wMs : StatisticsPooling ℚ := statisticsPoolingInit 1 true false (1 / 10 ^ 10)

def c9wMa : AttentiveStatisticsPooling ℚ :=
  { stddev := true, input_dim := 1, output_dim := 2, eps := 1 / 10 ^ 10,
    attention := fun _ => ⟨1, 1, 2, fun _ _ _ => 1 / 2⟩ }

def c9wXa : Tensor3 ℚ := ⟨1, 1, 2, fun _ _ k => (k : ℚ)⟩

theorem claim_C9_witness :
    (∃ y, StatisticsPooling.forward sqrtStand c9wMs c2wX = Except.ok y ∧
      ∃ v, c9wMs.eps ≤ v ∧ y.data 0 1 0 = sqrtStand v ∧
        sqrtStand c9wMs.eps ≤ y.data 0 1 0 ∧ 0 < y.data 0 1 0)
    ∧ (∃ y, AttentiveStatisticsPooling.forward sqrtStand c9wMa c9wXa = Except.ok y ∧
      ∃ v, c9wMa.eps ≤ v ∧ y.data 0 1 0 = sqrtStand v ∧
        sqrtStand c9wMa.eps ≤ y.data 0 1 0 ∧ 0 < y.data 0 1 0) :=
  claim_C9_clamped_sqrt sqrtStand sqrtStand_monotone sqrtStand_pos
    c9wMs c2wX c9wMa c9wXa 0 1 0 1
    (by rfl) (by norm_num [c9wMs, statisticsPoolingInit]) (by rfl)
    (by decide) (by decide)
    (by rfl) (by norm_num [c9wMa]) (by rfl)
    (by decide) (by decide)

theorem tdnnForward_fst {α : Type} [LinearOrderedField α] (sqrt : α → α)
    (neps : α) (m : TdnnAffine α) (x : Tensor3 α) (p : TdnnAffine α × Tensor3 α)
    (h : TdnnAffine.forward sqrt neps m x = Except.ok p) : p.1 = tdnnStep m := by
  unfold TdnnAffine.forward at h
  split at h
  · exact absurd h (by simp)
  · split at h
    · exact absurd h (by simp)
    · injection h with h2
      subst h2
      rfl

theorem pcmnForward_fst {α : Type} [LinearOrderedField α]
    (mp : AdaptivePCMN α) (xp : Tensor3 α) (p : AdaptivePCMN α × Tensor3 α)
    (h : AdaptivePCMN.forward mp xp = Except.ok p) :
    p.1.left_context = mp.left_context ∧ p.1.right_context = mp.right_context ∧
    p.1.tot_context = mp.tot_context ∧ p.1.input_dim = mp.input_dim ∧
    p.1.pad = mp.pad ∧ p.1.groups = mp.groups ∧ p.1.beta_w = mp.beta_w ∧
    p.1.alpha_w = mp.alpha_w ∧ p.1.mu_n_0_w = mp.mu_n_0_w ∧ p.1.bias = mp.bias := by
  unfold AdaptivePCMN.forward at h
  split at h
  · exact absurd h (by simp)
  · split at h
    · exact absurd h (by simp)
    · injection h with h2
      subst h2
      exact ⟨rfl, rfl, rfl, rfl, rfl, rfl, rfl, rfl, rfl, rfl⟩

/-- C3 (amended): forward computations write no module attribute except the
two caches the code explicitly maintains: `TdnnAffine.forward` may flip
`selected_device` (moving the mask to the device on the first call), and
`AdaptivePCMN.forward` stores its three convolution results into
`self.beta`, `self.alpha`, `self.mu_n_0`.  Every other attribute of either
module is unchanged by a forward call, and the other modules' forwards are
pure.  The original claim - that no field at all is written - fails on
exactly those caches (see the counterexample). -/
theorem claim_C3_forward_state_effect {α : Type} [LinearOrderedField α]
    (sqrt : α → α) (neps : α) (m : TdnnAffine α) (x : Tensor3 α)
    (mp : AdaptivePCMN α) (xp : Tensor3 α) :
    ((fwdModT sqrt neps m x).input_dim = m.input_dim ∧
      (fwdModT sqrt neps m x).output_dim = m.output_dim ∧
      (fwdModT sqrt neps m x).context = m.context ∧
      (fwdModT sqrt neps m x).bool_bias = m.bool_bias ∧
      (fwdModT sqrt neps m x).pad = m.pad ∧
      (fwdModT sqrt neps m x).norm_w = m.norm_w ∧
      (fwdModT sqrt neps m x).norm_f = m.norm_f ∧
      (fwdModT sqrt neps m x).stride = m.stride ∧
      (fwdModT sqrt neps m x).left_context = m.left_context ∧
      (fwdModT sqrt neps m x).right_context = m.right_context ∧
      (fwdModT sqrt neps m x).tot_context = m.tot_context ∧
      (fwdModT sqrt neps m x).weight = m.weight ∧
      (fwdModT sqrt neps m x).bias = m.bias ∧
      (fwdModT sqrt neps m x).mask = m.mask)
    ∧ ((pcmnFwdMod mp xp).left_context = mp.left_context ∧
      (pcmnFwdMod mp xp).right_context = mp.right_context ∧
      (pcmnFwdMod mp xp).tot_context = mp.tot_context ∧
      (pcmnFwdMod mp xp).input_dim = mp.input_dim ∧
      (pcmnFwdMod mp xp).pad = mp.pad ∧
      (pcmnFwdMod mp xp).groups = mp.groups ∧
      (pcmnFwdMod mp xp).beta_w = mp.beta_w ∧
      (pcmnFwdMod mp xp).alpha_w = mp.alpha_w ∧
      (pcmnFwdMod mp xp).mu_n_0_w = mp.mu_n_0_w ∧
      (pcmnFwdMod mp xp).bias = mp.bias) := by
  constructor
  · unfold fwdModT
    cases hres : TdnnAffine.forward sqrt neps m x with
    | error e =>
        exact ⟨rfl, rfl, rfl, rfl, rfl, rfl, rfl, rfl, rfl, rfl, rfl, rfl, rfl, rfl⟩
    | ok p =>
        obtain ⟨p1, p2⟩ := p
        have hfst : p1 = tdnnStep m := tdnnForward_fst sqrt neps m x (p1, p2) hres
        subst hfst
        have hstep : (tdnnStep m).input_dim = m.input_dim ∧
            (tdnnStep m).output_dim = m.output_dim ∧
            (tdnnStep m).context = m.context ∧
            (tdnnStep m).bool_bias = m.bool_bias ∧
            (tdnnStep m).pad = m.pad ∧
            (tdnnStep m).norm_w = m.norm_w ∧
            (tdnnStep m).norm_f = m.norm_f ∧
            (tdnnStep m).stride = m.stride ∧
            (tdnnStep m).left_context = m.left_context ∧
            (tdnnStep m).right_context = m.right_context ∧
            (tdnnStep m).tot_context = m.tot_context ∧
            (tdnnStep m).weight = m.weight ∧
            (tdnnStep m).bias = m.bias ∧
            (tdnnStep m).mask = m.mask := by
          unfold tdnnStep
          split
          · exact ⟨rfl, rfl, rfl, rfl, rfl, rfl, rfl, rfl, rfl, rfl, rfl, rfl, rfl, rfl⟩
          · exact ⟨rfl, rfl, rfl, rfl, rfl, rfl, rfl, rfl, rfl, rfl, rfl, rfl, rfl, rfl⟩
        exact hstep
  · unfold pcmnFwdMod
    cases hres : AdaptivePCMN.forward mp xp with
    | error e =>
        exact ⟨rfl, rfl, rfl, rfl, rfl, rfl, rfl, rfl, rfl, rfl⟩
    | ok p =>
        obtain ⟨p1, p2⟩ := p
        exact pcmnForward_fst mp xp (p1, p2) hres

/-- C3 counterexample data: `TdnnAffine(1, 1, [-1, 1])` (a gapped context,
so a mask is allocated) on a `(1, 1, 1)` input. -/
def c3cM : TdnnAffine ℚ := tdnnMk 1 1 (-1) [1] true true false false 1 c1wW c1wB

def c3cX : Tensor3 ℚ := ⟨1, 1, 1, fun _ _ _ => 1⟩

/-- C3 counterexample: the first successful forward call of a masked
`TdnnAffine` writes the module attribute `selected_device` from `False` to
`True` (components.py lines 116-121), so forward does not leave every
attribute unchanged. -/
theorem claim_C3_counterexample :
    tdnnAffineInit 1 1 [-1, 1] true true false false 1 c1wW c1wB = Except.ok c3cM ∧
    isOkE (TdnnAffine.forward hostSqrtQ normEps c3cM c3cX) = true ∧
    (fwdModT hostSqrtQ normEps c3cM c3cX).selected_device = true ∧
    c3cM.selected_device = false := by
  refine ⟨rfl, by decide, by decide, rfl⟩

/-- C4 concrete data: `TdnnfBlock(2, 3, 4, context_size=1)` and a correctly
shaped `(1, 2, 5)` input. -/
def c4wB1 : ℕ → ℕ → ℕ → ℚ := fun _ _ _ => 1

def c4Blk : TdnnfBlock ℚ := getBlk (tdnnfBlockInit 2 3 4 1 true c4wB1 c4wB1 c1wB)

def c4X : Tensor3 ℚ := ⟨1, 2, 5, fun _ _ _ => 0⟩

/-- C4 (code bug): `TdnnfBlock.__init__` builds both factors successfully,
but it never assigns `self.input_dim`, so the shape assert in `forward`
raises AttributeError on EVERY input - forward never reaches
`factor2(factor1(inputs))`, contradicting the claim that the shape
assertions are the only failure mode. -/
theorem claim_C4_tdnnf_attribute_error :
    isOkE (tdnnfBlockInit (α := ℚ) 2 3 4 1 true c4wB1 c4wB1 c1wB) = true ∧
    (getBlk (tdnnfBlockInit 2 3 4 1 true c4wB1 c4wB1 c1wB)).input_dim = none ∧
    TdnnfBlock.forward hostSqrtQ normEps c4Blk c4X = Except.error PyErr.attributeError :=
  ⟨by decide, by decide, rfl⟩

/-- C5 (code bug): `ContextDropout.forward` names its parameter `intputs`
but its body reads the undefined name `inputs`, so forward raises NameError
on every validly-shaped input instead of applying `Dropout2d` along the
frames dimension. -/
theorem claim_C5_context_dropout_name_error :
    ∀ (p : ℚ) (x : Tensor3 ℚ),
      ContextDropout.forward (contextDropoutInit p) x = Except.error PyErr.nameError :=
  fun _ _ => rfl

/-- C6 (code bug): `SEBlock.__init__` evaluates the misspelled name
`ReluBactchNormTdnnLayer` (the class is `ReluBatchNormTdnnLayer`), so
construction raises NameError for every `input_dim` and `ratio` and never
returns a usable module. -/
theorem claim_C6_seblock_name_error :
    ∀ (input_dim ratioArg : ℕ),
      seBlockInit (α := ℚ) input_dim ratioArg = Except.error PyErr.nameError :=
  fun _ _ => rfl
